import Mathlib

/-!
Shallow embedding of the `dndgame` combat / character-progression engine
(`src/dndgame/{dice,weapons,spells,combat,character}.py`) and proofs of the
spec claims about it.

Conventions of the embedding:
* Python `int` is `Int`; dice outcomes and slot counts are `Nat`.
* Randomness: each operation takes the primitive die outcomes as explicit
  arguments (for `roll(d, 1)` a single `Nat`; for the 3d6 stat rolls the
  per-stat totals; for the level-up loop a stream of outcomes).  Validity of
  an outcome (`1 ≤ r ≤ d`) is a hypothesis where a claim needs it.
* Python dicts are association lists (`List (κ × α)`) with `List.lookup`;
  `dict.get(k, 0)` is `slotsGet`, in-place update of an existing key is a
  structure-preserving map.
* Exceptions become `Option` (lookup / KeyError) or an explicit error code
  (`CastError`) where the claim distinguishes error kinds.  Python mutations
  performed before an exception is raised are preserved in the returned
  state, matching CPython semantics.
-/

/-- `weapons.py` — a weapon with damage dice (`Weapon.__init__`). -/
structure Weapon where
  name : String
  damage_die : Nat
  damage_dice_count : Nat := 1
deriving DecidableEq

/-- `weapons.py` — the `WEAPONS` registry. -/
def WEAPONS : List (String × Weapon) :=
  [("Dagger", ⟨"Dagger", 4, 1⟩),
   ("Shortsword", ⟨"Shortsword", 6, 1⟩),
   ("Longsword", ⟨"Longsword", 8, 1⟩),
   ("Battleaxe", ⟨"Battleaxe", 8, 1⟩),
   ("Greatsword", ⟨"Greatsword", 6, 2⟩),
   ("Greataxe", ⟨"Greataxe", 12, 1⟩),
   ("Club", ⟨"Club", 4, 1⟩),
   ("Mace", ⟨"Mace", 6, 1⟩),
   ("Warhammer", ⟨"Warhammer", 8, 1⟩)]

/-- `spells.py` — a spell (`Spell.__init__`). -/
structure Spell where
  name : String
  level : Nat
  school : String
  spell_power : Int
deriving DecidableEq

/-- `character.py` — base entity state (`Entity` attributes). -/
structure Entity where
  name : String
  stats : List (String × Int)
  hp : Int
  max_hp : Int
  armor_class : Int
  weapon : Option Weapon
deriving DecidableEq

/-- `Entity.__init__`: `max_hp = hp`, `armor_class` defaults to 10, and a
`None` weapon is replaced by `WEAPONS["Club"]`. -/
def Entity.init (name : String) (stats : List (String × Int)) (hp : Int)
    (armor_class : Int := 10) (weapon : Option Weapon := none) : Entity :=
  { name := name, stats := stats, hp := hp, max_hp := hp,
    armor_class := armor_class,
    weapon := match weapon with
      | some w => some w
      | none => WEAPONS.lookup "Club" }

/-- The source's recurring clamp pattern `if x < 0: x = 0`. -/
def clamp0 (x : Int) : Int :=
  if x < 0 then 0 else x

/-- `Entity.get_modifier`: `(self.stats[stat] - 10) // 2`.  Python `//` is
floor division, hence `Int.fdiv`; a missing key raises `KeyError`, hence
`none`. -/
def get_modifier (stats : List (String × Int)) (stat : String) : Option Int :=
  (stats.lookup stat).map (fun v => Int.fdiv (v - 10) 2)

/-- `Entity.is_alive`: `hp > 0`. -/
def Entity.is_alive (e : Entity) : Bool :=
  decide (0 < e.hp)

/-- `combat.py`, `Combat.attack`.  `atkRoll` is the `roll(20, 1)` outcome and
`dmgRoll` the `roll(weapon_max_damage, 1)` outcome, where the source hardcodes
`weapon_max_damage = 6` and never consults `attacker.weapon`.  Returns the
updated defender and the returned damage; `none` is the `KeyError` from a
missing `"STR"` stat. -/
def attack (attacker defender : Entity) (atkRoll dmgRoll : Nat) :
    Option (Entity × Int) :=
  match get_modifier attacker.stats "STR" with
  | none => none
  | some m =>
    if defender.armor_class ≤ (atkRoll : Int) + m then
      let damage : Int := (dmgRoll : Int)
      some ({ defender with hp := clamp0 (defender.hp - damage) }, damage)
    else
      some (defender, 0)

/-- `spells.py`, `Spell.cast`: damage = `spell_power` + caster's INT modifier,
clamped below at 0; the target's hp is reduced by it and clamped below at 0;
the clamped damage is returned.  `none` is the `KeyError` from a missing
`"INT"` stat. -/
def Spell.cast (sp : Spell) (casterStats : List (String × Int))
    (target : Entity) : Option (Entity × Int) :=
  match get_modifier casterStats "INT" with
  | none => none
  | some m =>
    let damage := clamp0 (sp.spell_power + m)
    some ({ target with hp := clamp0 (target.hp - damage) }, damage)

/-- `dict.get(k, 0)` on a spell-slot dictionary. -/
def slotsGet (m : List (Nat × Nat)) (k : Nat) : Nat :=
  (m.lookup k).getD 0

/-- In-place `m[k] -= 1` on an existing key of a spell-slot dictionary
(callers guard `slotsGet m k > 0`, so the key is present and positive). -/
def slotsDec (m : List (Nat × Nat)) (k : Nat) : List (Nat × Nat) :=
  m.map (fun p => if p.1 = k then (p.1, p.2 - 1) else p)

/-- `character.py` — the `SPELL_SLOTS_BY_LEVEL` table (levels 1..10; other
keys would raise `KeyError`, modeled as the empty dict and never queried). -/
def SPELL_SLOTS_BY_LEVEL (lvl : Nat) : List (Nat × Nat) :=
  if lvl = 1 then [(1, 2), (2, 0), (3, 0)]
  else if lvl = 2 then [(1, 3), (2, 0), (3, 0)]
  else if lvl = 3 then [(1, 4), (2, 2), (3, 0)]
  else if lvl = 4 then [(1, 4), (2, 3), (3, 0)]
  else if lvl = 5 then [(1, 4), (2, 3), (3, 2)]
  else if lvl ≤ 10 then [(1, 4), (2, 3), (3, 3)]
  else []

/-- `character.py` — the `XP_TABLE` (levels 1..10; only ever queried at
`level + 1` for `level < 10`). -/
def XP_TABLE (lvl : Nat) : Int :=
  if lvl ≤ 1 then 0
  else if lvl = 2 then 300
  else if lvl = 3 then 900
  else if lvl = 4 then 2700
  else if lvl = 5 then 6500
  else if lvl = 6 then 14000
  else if lvl = 7 then 23000
  else if lvl = 8 then 34000
  else if lvl = 9 then 48000
  else 64000

/-- `character.py` — full `Character` state (the `Entity` fields inlined). -/
structure Character where
  name : String
  race : String
  stats : List (String × Int)
  base_hp : Int
  hp : Int
  max_hp : Int
  armor_class : Int
  weapon : Option Weapon
  level : Nat
  xp : Int
  known_spells : List Spell
  spell_slots : List (Nat × Nat)
  max_spell_slots : List (Nat × Nat)
deriving DecidableEq

/-- `Character.__init__`: level 1, xp 0, empty stats, hp 0 (stats and hp are
set later by `roll_stats`), level-1 slot tables, default Club weapon. -/
def Character.init (name race : String) (base_hp : Int) : Character :=
  { name := name, race := race, stats := [], base_hp := base_hp,
    hp := 0, max_hp := 0, armor_class := 10,
    weapon := WEAPONS.lookup "Club",
    level := 1, xp := 0, known_spells := [],
    spell_slots := SPELL_SLOTS_BY_LEVEL 1,
    max_spell_slots := SPELL_SLOTS_BY_LEVEL 1 }

/-- The six ability identifiers in the order `roll_stats` assigns them. -/
def statNames : List String :=
  ["STR", "DEX", "CON", "INT", "WIS", "CHA"]

/-- `Character.roll_stats`: assigns all six stats (`rolls s` is the 3d6 total
for stat `s`, so a valid outcome satisfies `3 ≤ rolls s ≤ 18`), then sets
`max_hp = base_hp + modifier("CON")` and `hp = max_hp` — with no clamping.
`"CON"` is always present after the assignment, so the `KeyError` branch is
unreachable and left as the identity. -/
def roll_stats (c : Character) (rolls : String → Nat) : Character :=
  let stats := statNames.map (fun s => (s, (rolls s : Int)))
  match get_modifier stats "CON" with
  | some m => { c with stats := stats, max_hp := c.base_hp + m, hp := c.base_hp + m }
  | none => { c with stats := stats }

/-- `Character.rest`: `spell_slots = max_spell_slots.copy()`, `hp = max_hp`. -/
def Character.rest (c : Character) : Character :=
  { c with spell_slots := c.max_spell_slots, hp := c.max_hp }

/-- `Character.can_cast_spell`: known, and cantrip or a slot remains at the
spell's level (`spell_slots.get(level, 0) > 0`). -/
def can_cast_spell (c : Character) (sp : Spell) : Bool :=
  if sp ∈ c.known_spells then
    if sp.level = 0 then true
    else decide (0 < slotsGet c.spell_slots sp.level)
  else false

/-- Error kinds of `Character.cast_spell`: the domain error
`ValueError("Cannot cast ...")` versus a `KeyError` from a stat lookup. -/
inductive CastError where
  | valueError
  | keyError
deriving DecidableEq

/-- The slot-consumption step of `Character.cast_spell`: decrement the slot
at the spell's level when `level > 0`, otherwise leave the caster as is. -/
def cast_slot_phase (c : Character) (sp : Spell) : Character :=
  if 0 < sp.level then
    { c with spell_slots := slotsDec c.spell_slots sp.level }
  else c

/-- `Character.cast_spell`: raise `ValueError` if `can_cast_spell` fails
(before any mutation); otherwise consume a slot (`cast_slot_phase`), then
apply `Spell.cast`.  Returns the post-call caster and target states together
with the outcome; on the `KeyError` path the slot decrement has already
happened, exactly as in the source. -/
def cast_spell (c : Character) (sp : Spell) (target : Entity) :
    Character × Entity × Except CastError Int :=
  if can_cast_spell c sp then
    match sp.cast (cast_slot_phase c sp).stats target with
    | some (t', dmg) => (cast_slot_phase c sp, t', Except.ok dmg)
    | none => (cast_slot_phase c sp, target, Except.error CastError.keyError)
  else
    (c, target, Except.error CastError.valueError)

/-- Repeated casting of the same spell at the same (threaded) target:
`cast_spell` applied `n` times, carrying both the caster's and the target's
state across calls. -/
def castNTimes (sp : Spell) : Character × Entity → Nat → Character × Entity
  | s, 0 => s
  | s, n + 1 =>
    let r := cast_spell s.1 sp s.2
    castNTimes sp (r.1, r.2.1) n

/-- A sequence of `cast_spell` calls by one character against a list of
spell/target pairs, threading the caster's state. -/
def applyCasts : Character → List (Spell × Entity) → Character
  | c, [] => c
  | c, (sp, t) :: rest => applyCasts (cast_spell c sp t).1 rest

/-- Zero-based indexing into an association list (`list(d.keys())[i]` picks
the `i`-th key, since dict order is insertion order). -/
def listNth (l : List (String × Int)) (i : Nat) : Option (String × Int) :=
  match l, i with
  | [], _ => none
  | x :: _, 0 => some x
  | _ :: xs, n + 1 => listNth xs n

/-- `m[k] += 1` on an existing key of the stats dictionary. -/
def statInc (stats : List (String × Int)) (k : String) : List (String × Int) :=
  stats.map (fun p => if p.1 = k then (p.1, p.2 + 1) else p)

/-- Sum of all ability scores (used to state the level-4 ASI effect). -/
def statSum (stats : List (String × Int)) : Int :=
  (stats.map Prod.snd).sum

/-- `Character.level_up`: increment level; `max_hp += max(1, d10 + CON mod)`
(`if hp_increase < 1: hp_increase = 1`); `hp = max_hp`; replace both slot
tables with the table entry for the new level; if the new level is a multiple
of 4, increment the stat at index `statPick - 1` of the stats' key list
(`statPick` is the `roll(len(stats), 1)` outcome).  `none` is the `KeyError`
of a missing `"CON"` stat or an out-of-range stat pick. -/
def level_up (c : Character) (d10 statPick : Nat) : Option Character :=
  match get_modifier c.stats "CON" with
  | none => none
  | some conMod =>
    let inc0 : Int := (d10 : Int) + conMod
    let inc : Int := if inc0 < 1 then 1 else inc0
    let newLevel := c.level + 1
    let c' : Character :=
      { c with level := newLevel,
               max_hp := c.max_hp + inc, hp := c.max_hp + inc,
               max_spell_slots := SPELL_SLOTS_BY_LEVEL newLevel,
               spell_slots := SPELL_SLOTS_BY_LEVEL newLevel }
    if newLevel % 4 = 0 then
      match listNth c'.stats (statPick - 1) with
      | some p => some { c' with stats := statInc c'.stats p.1 }
      | none => none
    else
      some c'

/-- The `while` loop of `Character.gain_xp`.  `rolls` is the stream of die
outcomes the loop consumes, one pair (d10 hp roll, stat-pick roll) per
`level_up`; the guard strictly increases `level`, so the loop iterates at
most `10 - level` times and any stream of at least that length behaves as
the unbounded Python loop (running out of outcomes mid-loop is `none`, which
callers avoid by supplying enough). -/
def gain_xp_loop : List (Nat × Nat) → Character → Bool → Option (Character × Bool)
  | [], c, leveled =>
    if c.level < 10 ∧ XP_TABLE (c.level + 1) ≤ c.xp then none
    else some (c, leveled)
  | r :: rest, c, leveled =>
    if c.level < 10 ∧ XP_TABLE (c.level + 1) ≤ c.xp then
      match level_up c r.1 r.2 with
      | some c' => gain_xp_loop rest c' true
      | none => none
    else some (c, leveled)

/-- `Character.gain_xp`: add `amount` to `xp`, then level up while
`level < 10` and `xp ≥ XP_TABLE[level + 1]`; return whether at least one
level-up occurred. -/
def gain_xp (c : Character) (amount : Int) (rolls : List (Nat × Nat)) :
    Option (Character × Bool) :=
  gain_xp_loop rolls { c with xp := c.xp + amount } false

/-- A full six-stat block with every score equal to `v`. -/
def sixStats (v : Int) : List (String × Int) :=
  statNames.map (fun s => (s, v))

/-- Example attacker equipped with the registry Dagger (a 1d4 weapon). -/
def attackerDagger : Entity :=
  { name := "A", stats := sixStats 20, hp := 10, max_hp := 10,
    armor_class := 10, weapon := some ⟨"Dagger", 4, 1⟩ }

/-- Example attacker with no weapon (as in the repository's unarmed test,
which assigns `attacker.weapon = None` after construction). -/
def attackerUnarmed : Entity :=
  { attackerDagger with weapon := none }

/-- Example defender with armor class 10 and 20 hp. -/
def defenderEx : Entity :=
  { name := "D", stats := sixStats 10, hp := 20, max_hp := 20,
    armor_class := 10, weapon := none }

/-- The source's clamp is `max 0 x`. -/
theorem clamp0_eq_max (x : Int) : clamp0 x = max 0 x := by
  rcases lt_or_le x 0 with h | h
  · simp [clamp0, h, le_of_lt h]
  · simp [clamp0, not_lt.mpr h, h]

/-- C9: for every `Character` in every prior state, after `rest()` the
`spell_slots` mapping equals `max_spell_slots` (hence at every spell level)
and `hp` equals `max_hp`; `rest` has no precondition and changes no other
field. -/
theorem rest_full_refresh (c : Character) :
    c.rest.spell_slots = c.max_spell_slots ∧
    (∀ l, slotsGet c.rest.spell_slots l = slotsGet c.max_spell_slots l) ∧
    c.rest.hp = c.max_hp ∧
    c.rest.name = c.name ∧ c.rest.race = c.race ∧
    c.rest.stats = c.stats ∧ c.rest.base_hp = c.base_hp ∧
    c.rest.max_hp = c.max_hp ∧ c.rest.armor_class = c.armor_class ∧
    c.rest.weapon = c.weapon ∧ c.rest.level = c.level ∧
    c.rest.xp = c.xp ∧ c.rest.known_spells = c.known_spells ∧
    c.rest.max_spell_slots = c.max_spell_slots := by
  simp [Character.rest]

/-- C7: for an assigned score `s` the modifier is exactly
`floor((s - 10) / 2)` (floor division, e.g. 8 ↦ -1, 3 ↦ -4, 20 ↦ 5), and the
lookup fails (`KeyError`, modeled as `none`) when the queried stat is absent —
in particular on an unrolled character (empty stats) and, after `roll_stats`,
exactly on the non-canonical identifiers. -/
theorem get_modifier_spec (stats : List (String × Int)) (stat : String) :
    (∀ s, stats.lookup stat = some s →
      get_modifier stats stat = some (Int.fdiv (s - 10) 2)) ∧
    (stats.lookup stat = none → get_modifier stats stat = none) ∧
    get_modifier [("STR", 8)] "STR" = some (-1) ∧
    get_modifier [("INT", 3)] "INT" = some (-4) ∧
    get_modifier [("CON", 20)] "CON" = some 5 ∧
    (∀ name race bhp st,
      get_modifier (Character.init name race bhp).stats st = none) ∧
    (∀ c rolls st, st ∉ statNames →
      get_modifier (roll_stats c rolls).stats st = none) := by
  refine ⟨?_, ?_, by decide, by decide, by decide, ?_, ?_⟩
  · intro s hs
    simp [get_modifier, hs]
  · intro hs
    simp [get_modifier, hs]
  · intro name race bhp st
    simp [get_modifier, Character.init]
  · intro c rolls st hst
    simp [statNames] at hst
    push_neg at hst
    obtain ⟨h1, h2, h3, h4, h5, h6⟩ := hst
    simp [roll_stats, get_modifier, statNames, List.lookup,
      beq_eq_false_iff_ne.mpr h1, beq_eq_false_iff_ne.mpr h2,
      beq_eq_false_iff_ne.mpr h3, beq_eq_false_iff_ne.mpr h4,
      beq_eq_false_iff_ne.mpr h5, beq_eq_false_iff_ne.mpr h6]

/-- C3: a successful `Spell.cast` resolves damage as `spell_power` plus the
caster's INT modifier clamped to a minimum of 0; a spell whose power plus
modifier is negative deals exactly 0 and never heals (on the data model's
hp ≥ 0, the target's hp never increases); the target's hp is reduced by the
clamped value with a floor of 0; the clamped value is returned. -/
theorem spell_cast_spec (sp : Spell) (stats : List (String × Int)) (t : Entity)
    (m : Int) (hm : get_modifier stats "INT" = some m) (hhp : 0 ≤ t.hp) :
    ∃ t' dmg, sp.cast stats t = some (t', dmg) ∧
      dmg = max 0 (sp.spell_power + m) ∧
      t'.hp = max 0 (t.hp - dmg) ∧
      t'.hp ≤ t.hp ∧
      (sp.spell_power + m < 0 → dmg = 0 ∧ t'.hp = t.hp) := by
  have hcast : sp.cast stats t =
      some ({ t with hp := max 0 (t.hp - max 0 (sp.spell_power + m)) },
            max 0 (sp.spell_power + m)) := by
    simp only [Spell.cast, hm, clamp0_eq_max]
  refine ⟨_, _, hcast, rfl, rfl, ?_, ?_⟩
  · exact max_le hhp (sub_le_self _ (le_max_left 0 _))
  · intro hneg
    have h0 : max 0 (sp.spell_power + m) = 0 := max_eq_left (le_of_lt hneg)
    refine ⟨h0, ?_⟩
    simp only [h0, sub_zero]
    exact max_eq_right hhp

/-- C6: an attack hits iff `d20 + STR modifier ≥ armor_class` (a single
threshold comparison, no critical-hit or fumble case); on a hit the defender's
hp becomes `max(0, hp - damage)` while the full rolled damage is returned even
when the reduction was capped at the 0 floor; on a miss the call returns 0 and
the defender is unchanged. -/
theorem attack_spec (a d : Entity) (atkRoll dmgRoll : Nat) (m : Int)
    (hm : get_modifier a.stats "STR" = some m) :
    ((d.armor_class ≤ (atkRoll : Int) + m) →
      attack a d atkRoll dmgRoll
        = some ({ d with hp := max 0 (d.hp - (dmgRoll : Int)) },
                (dmgRoll : Int))) ∧
    (((atkRoll : Int) + m < d.armor_class) →
      attack a d atkRoll dmgRoll = some (d, 0)) := by
  constructor
  · intro hhit
    simp [attack, hm, hhit, clamp0_eq_max]
  · intro hmiss
    simp [attack, hm, not_le.mpr hmiss]

/-- C1 (code bug): the source's `Combat.attack` hardcodes
`weapon_max_damage = 6` and rolls `roll(6, 1)` without consulting
`attacker.weapon`.  With a Dagger (1d4) equipped, the valid d6 outcome 6
yields damage 6, outside the claimed range `[1, 1*4]`; with no weapon, the
valid d6 outcome 3 yields damage 3, not the claimed fixed 1. -/
theorem attack_ignores_weapon :
    attackerDagger.weapon = some ⟨"Dagger", 4, 1⟩ ∧
    (attack attackerDagger defenderEx 10 6
      = some ({ defenderEx with hp := 14 }, 6) ∧
      ¬ ((6 : Int) ≤ 1 * 4)) ∧
    attackerUnarmed.weapon = none ∧
    (attack attackerUnarmed defenderEx 10 3
      = some ({ defenderEx with hp := 17 }, 3) ∧
      (3 : Int) ≠ 1) := by
  refine ⟨rfl, ⟨by decide, by decide⟩, rfl, ⟨by decide, by decide⟩⟩

/-- The clamp never produces a negative value. -/
theorem clamp0_nonneg (x : Int) : 0 ≤ clamp0 x := by
  unfold clamp0
  split <;> omega

/-- Shared characterization of a successful `level_up`: every field of the
resulting character in terms of the inputs. -/
theorem level_up_some_spec (c : Character) (d10 pick : Nat) (c' : Character)
    (h : level_up c d10 pick = some c') :
    ∃ m, get_modifier c.stats "CON" = some m ∧
      c'.level = c.level + 1 ∧
      c'.max_hp = c.max_hp + (if (d10 : Int) + m < 1 then 1 else (d10 : Int) + m) ∧
      c.max_hp + 1 ≤ c'.max_hp ∧
      c'.hp = c'.max_hp ∧
      c'.max_spell_slots = SPELL_SLOTS_BY_LEVEL (c.level + 1) ∧
      c'.spell_slots = SPELL_SLOTS_BY_LEVEL (c.level + 1) ∧
      c'.xp = c.xp ∧ c'.name = c.name ∧ c'.race = c.race ∧
      c'.base_hp = c.base_hp ∧ c'.armor_class = c.armor_class ∧
      c'.weapon = c.weapon ∧ c'.known_spells = c.known_spells ∧
      ((c.level + 1) % 4 ≠ 0 → c'.stats = c.stats) ∧
      ((c.level + 1) % 4 = 0 →
        ∃ p, listNth c.stats (pick - 1) = some p ∧
          c'.stats = statInc c.stats p.1) := by
  rcases hmod : get_modifier c.stats "CON" with _ | m
  · simp [level_up, hmod] at h
  · simp only [level_up, hmod] at h
    by_cases h4 : (c.level + 1) % 4 = 0
    · rw [if_pos h4] at h
      rcases hk : listNth c.stats (pick - 1) with _ | p
      · rw [hk] at h
        simp at h
      · rw [hk] at h
        injection h with h
        subst h
        refine ⟨m, rfl, rfl, rfl, ?_, rfl, rfl, rfl, rfl, rfl, rfl, rfl,
          rfl, rfl, rfl, fun hne => absurd h4 hne, fun _ => ⟨p, rfl, rfl⟩⟩
        show c.max_hp + 1
          ≤ c.max_hp + (if (d10 : Int) + m < 1 then 1 else (d10 : Int) + m)
        split_ifs <;> omega
    · rw [if_neg h4] at h
      injection h with h
      subst h
      refine ⟨m, rfl, rfl, rfl, ?_, rfl, rfl, rfl, rfl, rfl, rfl, rfl,
        rfl, rfl, rfl, fun _ => rfl, fun he => absurd he h4⟩
      show c.max_hp + 1
        ≤ c.max_hp + (if (d10 : Int) + m < 1 then 1 else (d10 : Int) + m)
      split_ifs <;> omega

/-- C2 (amended): the hp mutations of `attack` and `Spell.cast` are clamped
at a floor of 0, so they preserve hp ≥ 0; `rest` and `level_up` set hp equal
to `max_hp`; but `roll_stats` sets hp to `base_hp + CON modifier` with no
clamp — for valid 3d6 totals (≥ 3) this is guaranteed nonnegative only when
`base_hp ≥ 4`, and it is negative for small `base_hp` (see the
counterexample). -/
theorem hp_mutation_floors :
    (∀ a d r1 r2 d' dmg, 0 ≤ d.hp → attack a d r1 r2 = some (d', dmg) →
      0 ≤ d'.hp) ∧
    (∀ sp stats t t' dmg, 0 ≤ t.hp →
      Spell.cast sp stats t = some (t', dmg) → 0 ≤ t'.hp) ∧
    (∀ c : Character, c.rest.hp = c.max_hp) ∧
    (∀ c d10 pick c', level_up c d10 pick = some c' → c'.hp = c'.max_hp) ∧
    (∀ c rolls, (roll_stats c rolls).hp
        = c.base_hp + Int.fdiv ((rolls "CON" : Int) - 10) 2) ∧
    (∀ c rolls, 4 ≤ c.base_hp → 3 ≤ rolls "CON" →
      0 ≤ (roll_stats c rolls).hp) := by
  have hroll : ∀ (c : Character) (rolls : String → Nat),
      (roll_stats c rolls).hp
        = c.base_hp + Int.fdiv ((rolls "CON" : Int) - 10) 2 := by
    intro c rolls
    simp [roll_stats, get_modifier, statNames, List.lookup]
  refine ⟨?_, ?_, ?_, ?_, hroll, ?_⟩
  · intro a d r1 r2 d' dmg hd h
    rcases hmod : get_modifier a.stats "STR" with _ | m
    · simp [attack, hmod] at h
    · simp only [attack, hmod] at h
      split_ifs at h with hhit
      · simp only [Option.some.injEq, Prod.mk.injEq] at h
        obtain ⟨hd', _⟩ := h
        rw [← hd']
        exact clamp0_nonneg _
      · simp only [Option.some.injEq, Prod.mk.injEq] at h
        obtain ⟨hd', _⟩ := h
        rw [← hd']
        exact hd
  · intro sp stats t t' dmg ht h
    rcases hmod : get_modifier stats "INT" with _ | m
    · simp [Spell.cast, hmod] at h
    · simp only [Spell.cast, hmod, Option.some.injEq, Prod.mk.injEq] at h
      obtain ⟨ht', _⟩ := h
      rw [← ht']
      exact clamp0_nonneg _
  · intro c
    simp [Character.rest]
  · intro c d10 pick c' h
    obtain ⟨m, -, -, -, -, hhp, -⟩ := level_up_some_spec c d10 pick c' h
    exact hhp
  · intro c rolls hbase hcon
    rw [hroll]
    have h2 : -4 ≤ Int.fdiv ((rolls "CON" : Int) - 10) 2 := by
      rw [Int.fdiv_eq_ediv _ (by norm_num)]
      omega
    omega

/-- `slotsDec` maps the looked-up value at its own key through `· - 1`. -/
theorem lookup_slotsDec (m : List (Nat × Nat)) (k : Nat) :
    (slotsDec m k).lookup k = (m.lookup k).map (fun v => v - 1) := by
  induction m with
  | nil => rfl
  | cons hd tl ih =>
    rcases hd with ⟨k1, v1⟩
    have hstep : slotsDec ((k1, v1) :: tl) k
        = (if k1 = k then (k1, v1 - 1) else (k1, v1)) :: slotsDec tl k := rfl
    rw [hstep]
    by_cases hk : k1 = k
    · subst hk
      rw [if_pos rfl]
      simp [List.lookup]
    · rw [if_neg hk]
      simp [List.lookup, beq_eq_false_iff_ne.mpr (Ne.symm hk), ih]

/-- `slotsDec` leaves every other key untouched. -/
theorem lookup_slotsDec_ne (m : List (Nat × Nat)) (k l : Nat) (hl : l ≠ k) :
    (slotsDec m k).lookup l = m.lookup l := by
  induction m with
  | nil => rfl
  | cons hd tl ih =>
    rcases hd with ⟨k1, v1⟩
    have hstep : slotsDec ((k1, v1) :: tl) k
        = (if k1 = k then (k1, v1 - 1) else (k1, v1)) :: slotsDec tl k := rfl
    rw [hstep]
    by_cases hk : k1 = k
    · subst hk
      rw [if_pos rfl]
      simp [List.lookup, beq_eq_false_iff_ne.mpr hl, ih]
    · rw [if_neg hk]
      by_cases hk1 : l = k1
      · subst hk1
        simp [List.lookup]
      · simp [List.lookup, beq_eq_false_iff_ne.mpr hk1, ih]

/-- The caster state produced by `cast_spell`: slot decrement happens exactly
when the gate passed and the spell is not a cantrip, regardless of how the
effect application went. -/
theorem cast_spell_fst (c : Character) (sp : Spell) (t : Entity) :
    (cast_spell c sp t).1 =
      if can_cast_spell c sp then cast_slot_phase c sp else c := by
  unfold cast_spell
  split_ifs with h1
  · rcases hc : sp.cast (cast_slot_phase c sp).stats t with _ | pr <;>
      simp [hc]
  · rfl

/-- The outcome of `cast_spell` is the domain error exactly when the
`can_cast_spell` gate fails. -/
theorem cast_spell_valueError_iff (c : Character) (sp : Spell) (t : Entity) :
    (cast_spell c sp t).2.2 = Except.error CastError.valueError
      ↔ can_cast_spell c sp = false := by
  unfold cast_spell
  split_ifs with h1
  · rw [h1]
    rcases hc : sp.cast (cast_slot_phase c sp).stats t with _ | pr <;>
      simp [hc]
  · simp at h1
    simp [h1]

/-- C4: `cast_spell` raises a domain error iff `can_cast_spell` is false (the
spell is unknown, or a non-cantrip has no remaining slot at its level); a
domain-error cast leaves the caster (in particular `spell_slots`) and the
target completely unchanged; a successful gate with a level-0 spell decrements
no slot no matter how often the cast is repeated; a successful gate with a
level-N (N > 0) spell decrements `spell_slots[N]` by exactly 1 and no other
slot level. -/
theorem cast_spell_spec (c : Character) (sp : Spell) (t : Entity) :
    ((cast_spell c sp t).2.2 = Except.error CastError.valueError
      ↔ can_cast_spell c sp = false) ∧
    ((cast_spell c sp t).2.2 = Except.error CastError.valueError →
      (cast_spell c sp t).1 = c ∧ (cast_spell c sp t).2.1 = t) ∧
    (sp.level = 0 → (cast_spell c sp t).1.spell_slots = c.spell_slots) ∧
    (sp.level = 0 → ∀ n,
      (castNTimes sp (c, t) n).1.spell_slots = c.spell_slots) ∧
    (can_cast_spell c sp = true → 0 < sp.level →
      slotsGet (cast_spell c sp t).1.spell_slots sp.level + 1
        = slotsGet c.spell_slots sp.level ∧
      (∀ l, l ≠ sp.level →
        slotsGet (cast_spell c sp t).1.spell_slots l
          = slotsGet c.spell_slots l)) := by
  have hfst0 : ∀ (c : Character) (t : Entity), sp.level = 0 →
      (cast_spell c sp t).1 = c := by
    intro c t h0
    rw [cast_spell_fst]
    simp [cast_slot_phase, h0]
  refine ⟨cast_spell_valueError_iff c sp t, ?_, ?_, ?_, ?_⟩
  · intro herr
    have hcant := (cast_spell_valueError_iff c sp t).mp herr
    unfold cast_spell
    rw [hcant]
    simp
  · intro h0
    rw [hfst0 c t h0]
  · intro h0 n
    induction n generalizing c t with
    | zero => rfl
    | succ n ih =>
      show (castNTimes sp ((cast_spell c sp t).1, (cast_spell c sp t).2.1) n).1.spell_slots
        = c.spell_slots
      rw [hfst0 c t h0]
      exact ih c (cast_spell c sp t).2.1
  · intro hcan hpos
    have hslot : 0 < slotsGet c.spell_slots sp.level := by
      unfold can_cast_spell at hcan
      split_ifs at hcan with hmem h0
      · omega
      · exact of_decide_eq_true hcan
    rw [cast_spell_fst, if_pos hcan]
    unfold cast_slot_phase
    rw [if_pos hpos]
    have hlk : ∃ v, c.spell_slots.lookup sp.level = some v ∧ 0 < v := by
      unfold slotsGet at hslot
      rcases hv : c.spell_slots.lookup sp.level with _ | v
      · rw [hv] at hslot
        simp at hslot
      · rw [hv] at hslot
        exact ⟨v, rfl, hslot⟩
    obtain ⟨v, hv, hvpos⟩ := hlk
    constructor
    · show slotsGet (slotsDec c.spell_slots sp.level) sp.level + 1
        = slotsGet c.spell_slots sp.level
      unfold slotsGet
      rw [lookup_slotsDec, hv]
      simp
      omega
    · intro l hl
      show slotsGet (slotsDec c.spell_slots sp.level) l
        = slotsGet c.spell_slots l
      unfold slotsGet
      rw [lookup_slotsDec_ne _ _ _ hl]

/-- Clamping below at 1, as `max`. -/
theorem clamp1_eq_max (x : Int) : (if x < 1 then 1 else x) = max 1 x := by
  rcases lt_or_le x 1 with h | h
  · simp [h, le_of_lt h]
  · simp [not_lt.mpr h, h]

/-- C8: every `level_up` call (reachable only while `level < 10`) increments
`level` by 1, increases `max_hp` by `max(1, 1d10 + CON modifier)` — at least
1 on every call, never 0 or negative, even at CON modifier -4 — sets `hp`
to the new `max_hp`, and replaces both `max_spell_slots` and `spell_slots`
with the slots-table entry for the new level. -/
theorem level_up_spec (c : Character) (d10 statPick : Nat) (c' : Character)
    (_hlvl : c.level < 10) (h : level_up c d10 statPick = some c') :
    c'.level = c.level + 1 ∧
    (∃ conMod, get_modifier c.stats "CON" = some conMod ∧
      c'.max_hp = c.max_hp + max 1 ((d10 : Int) + conMod)) ∧
    c.max_hp + 1 ≤ c'.max_hp ∧
    c'.hp = c'.max_hp ∧
    c'.max_spell_slots = SPELL_SLOTS_BY_LEVEL (c.level + 1) ∧
    c'.spell_slots = SPELL_SLOTS_BY_LEVEL (c.level + 1) := by
  obtain ⟨m, hm, h1, h2, h3, h4, h5, h6, -⟩ :=
    level_up_some_spec c d10 statPick c' h
  rw [clamp1_eq_max] at h2
  exact ⟨h1, ⟨m, hm, h2⟩, h3, h4, h5, h6⟩

/-- `cast_spell` never touches `max_spell_slots`. -/
theorem cast_spell_max_slots (c : Character) (sp : Spell) (t : Entity) :
    (cast_spell c sp t).1.max_spell_slots = c.max_spell_slots := by
  rw [cast_spell_fst]
  unfold cast_slot_phase
  split_ifs <;> rfl

/-- Any sequence of casts leaves `max_spell_slots` unchanged. -/
theorem applyCasts_max_slots (casts : List (Spell × Entity)) :
    ∀ c : Character, (applyCasts c casts).max_spell_slots = c.max_spell_slots := by
  induction casts with
  | nil => intro c; rfl
  | cons hd tl ih =>
    intro c
    rcases hd with ⟨sp, t⟩
    show (applyCasts (cast_spell c sp t).1 tl).max_spell_slots = c.max_spell_slots
    rw [ih, cast_spell_max_slots]

/-- C10: `rest` and `level_up` install independent copies of the slot tables,
so any subsequent sequence of casts changes only `spell_slots`: after
`rest`, `max_spell_slots` still equals its pre-rest value however many casts
follow; after `level_up`, it still equals the static
`SPELL_SLOTS_BY_LEVEL` entry for the new level however many casts follow
(the static table itself, a pure function, is unchanged by construction). -/
theorem slot_copy_frame :
    (∀ (c : Character) (casts : List (Spell × Entity)),
      (applyCasts c.rest casts).max_spell_slots = c.max_spell_slots) ∧
    (∀ (c : Character) (d10 pick : Nat) (c' : Character)
        (casts : List (Spell × Entity)),
      level_up c d10 pick = some c' →
      (applyCasts c' casts).max_spell_slots
        = SPELL_SLOTS_BY_LEVEL (c.level + 1)) := by
  constructor
  · intro c casts
    rw [applyCasts_max_slots]
    rfl
  · intro c d10 pick c' casts h
    obtain ⟨m, -, -, -, -, -, h5, -⟩ := level_up_some_spec c d10 pick c' h
    rw [applyCasts_max_slots]
    exact h5

/-- Once the level-up guard fails, the loop stops immediately with the
current state and flag, whatever outcomes remain. -/
theorem gain_xp_loop_stop (rolls : List (Nat × Nat)) (c : Character) (b : Bool)
    (hg : ¬(c.level < 10 ∧ XP_TABLE (c.level + 1) ≤ c.xp)) :
    gain_xp_loop rolls c b = some (c, b) := by
  cases rolls with
  | nil =>
    unfold gain_xp_loop
    rw [if_neg hg]
  | cons r rest =>
    unfold gain_xp_loop
    rw [if_neg hg]

/-- One iteration of the loop under a passing guard and a successful
`level_up`. -/
theorem gain_xp_loop_step (r : Nat × Nat) (rest : List (Nat × Nat))
    (c : Character) (b : Bool)
    (hg : c.level < 10 ∧ XP_TABLE (c.level + 1) ≤ c.xp)
    (c1 : Character) (hl : level_up c r.1 r.2 = some c1) :
    gain_xp_loop (r :: rest) c b = gain_xp_loop rest c1 true := by
  show (if c.level < 10 ∧ XP_TABLE (c.level + 1) ≤ c.xp then
      match level_up c r.1 r.2 with
      | some c' => gain_xp_loop rest c' true
      | none => none
    else some (c, b)) = gain_xp_loop rest c1 true
  rw [if_pos hg, hl]

/-- The loop never changes `xp` (only `level_up` runs inside, and `level_up`
does not touch `xp`). -/
theorem gain_xp_loop_xp (rolls : List (Nat × Nat)) :
    ∀ (c : Character) (b : Bool) (c' : Character) (flag : Bool),
      gain_xp_loop rolls c b = some (c', flag) → c'.xp = c.xp := by
  induction rolls with
  | nil =>
    intro c b c' flag h
    unfold gain_xp_loop at h
    split_ifs at h
    simp only [Option.some.injEq, Prod.mk.injEq] at h
    rw [← h.1]
  | cons r rest ih =>
    intro c b c' flag h
    unfold gain_xp_loop at h
    split_ifs at h with hg
    · rcases hl : level_up c r.1 r.2 with _ | c1
      · rw [hl] at h
        cases h
      · rw [hl] at h
        obtain ⟨m, -, -, -, -, -, -, -, hx, -⟩ :=
          level_up_some_spec c r.1 r.2 c1 hl
        rw [ih c1 true c' flag h, hx]
    · simp only [Option.some.injEq, Prod.mk.injEq] at h
      rw [← h.1]

/-- Once the flag is set it stays set. -/
theorem gain_xp_loop_flag_true (rolls : List (Nat × Nat)) :
    ∀ (c : Character) (c' : Character) (flag : Bool),
      gain_xp_loop rolls c true = some (c', flag) → flag = true := by
  induction rolls with
  | nil =>
    intro c c' flag h
    unfold gain_xp_loop at h
    split_ifs at h
    simp only [Option.some.injEq, Prod.mk.injEq] at h
    rw [← h.2]
  | cons r rest ih =>
    intro c c' flag h
    unfold gain_xp_loop at h
    split_ifs at h with hg
    · rcases hl : level_up c r.1 r.2 with _ | c1
      · rw [hl] at h
        cases h
      · rw [hl] at h
        exact ih c1 c' flag h
    · simp only [Option.some.injEq, Prod.mk.injEq] at h
      rw [← h.2]

/-- Constructive success of `level_up`: the CON modifier exists and, when the
new level triggers the ability-score improvement, the stat pick is in
range. -/
theorem level_up_isSome (c : Character) (d10 pick : Nat) (m : Int)
    (hm : get_modifier c.stats "CON" = some m)
    (h4 : (c.level + 1) % 4 = 0 → ∃ p, listNth c.stats (pick - 1) = some p) :
    ∃ c', level_up c d10 pick = some c' := by
  simp only [level_up, hm]
  by_cases h : (c.level + 1) % 4 = 0
  · obtain ⟨p, hp⟩ := h4 h
    rw [if_pos h, hp]
    exact ⟨_, rfl⟩
  · rw [if_neg h]
    exact ⟨_, rfl⟩

/-- C5: `gain_xp(amount)` adds `amount` to `xp` and then, while `level < 10`
and `xp` reaches the next threshold, performs level-up transitions (possibly
several in one call), returning true iff at least one occurred; on a fresh
level-1 character, `gain_xp(300)` yields exactly level 2, and `gain_xp(3000)`
yields exactly level 4 in one call and increments exactly one ability score
by 1 (the level-4 improvement: the six scores' sum grows by exactly 1). -/
theorem gain_xp_spec :
    (∀ (c : Character) (amount : Int) (rolls : List (Nat × Nat))
        (c' : Character) (flag : Bool),
      gain_xp c amount rolls = some (c', flag) →
      c'.xp = c.xp + amount ∧
      (flag = true ↔ (c.level < 10 ∧ XP_TABLE (c.level + 1) ≤ c.xp + amount))) ∧
    (∀ (c : Character) (v1 v2 v3 v4 v5 v6 : Int) (r0 : Nat × Nat)
        (rs : List (Nat × Nat)),
      c.level = 1 → c.xp = 0 →
      c.stats = [("STR", v1), ("DEX", v2), ("CON", v3),
                 ("INT", v4), ("WIS", v5), ("CHA", v6)] →
      ∃ c', gain_xp c 300 (r0 :: rs) = some (c', true) ∧ c'.level = 2) ∧
    (∀ (c : Character) (v1 v2 v3 v4 v5 v6 : Int) (r0 r1 : Nat × Nat)
        (x2 y2 : Nat) (rs : List (Nat × Nat)),
      c.level = 1 → c.xp = 0 →
      c.stats = [("STR", v1), ("DEX", v2), ("CON", v3),
                 ("INT", v4), ("WIS", v5), ("CHA", v6)] →
      1 ≤ y2 → y2 ≤ 6 →
      ∃ c', gain_xp c 3000 (r0 :: r1 :: (x2, y2) :: rs) = some (c', true) ∧
        c'.level = 4 ∧ statSum c'.stats = statSum c.stats + 1) := by
  refine ⟨?_, ?_, ?_⟩
  · intro c amount rolls c' flag h
    unfold gain_xp at h
    constructor
    · rw [gain_xp_loop_xp rolls _ false c' flag h]
    · cases rolls with
      | nil =>
        unfold gain_xp_loop at h
        split_ifs at h with hg
        · simp only [Option.some.injEq, Prod.mk.injEq] at h
          rw [← h.2]
          exact iff_of_false (by simp) hg
      | cons r rest =>
        unfold gain_xp_loop at h
        split_ifs at h with hg
        · rcases hl : level_up { c with xp := c.xp + amount } r.1 r.2
            with _ | c1
          · rw [hl] at h
            cases h
          · rw [hl] at h
            rw [gain_xp_loop_flag_true rest c1 c' flag h]
            exact iff_of_true rfl hg
        · simp only [Option.some.injEq, Prod.mk.injEq] at h
          rw [← h.2]
          exact iff_of_false (by simp) hg
  · intro c v1 v2 v3 v4 v5 v6 r0 rs h1 h2 h3
    have hmod : get_modifier c.stats "CON" = some (Int.fdiv (v3 - 10) 2) := by
      rw [h3]
      rfl
    have hg0 : ({ c with xp := c.xp + 300 } : Character).level < 10 ∧
        XP_TABLE (({ c with xp := c.xp + 300 } : Character).level + 1)
          ≤ ({ c with xp := c.xp + 300 } : Character).xp := by
      show c.level < 10 ∧ XP_TABLE (c.level + 1) ≤ c.xp + 300
      rw [h1, h2]
      norm_num [XP_TABLE]
    obtain ⟨C1, hl1⟩ := level_up_isSome { c with xp := c.xp + 300 }
      r0.1 r0.2 _ hmod
      (fun hh => absurd hh (by
        show ¬(c.level + 1) % 4 = 0
        rw [h1]
        norm_num))
    obtain ⟨m1, -, hlev1, -, -, -, -, -, hxp1, -, -, -, -, -, -, -, -⟩ :=
      level_up_some_spec _ r0.1 r0.2 C1 hl1
    have hguard1 : ¬(C1.level < 10 ∧ XP_TABLE (C1.level + 1) ≤ C1.xp) := by
      rw [hlev1, hxp1]
      show ¬(c.level + 1 < 10 ∧ XP_TABLE (c.level + 1 + 1) ≤ c.xp + 300)
      rw [h1, h2]
      norm_num [XP_TABLE]
    refine ⟨C1, ?_, ?_⟩
    · show gain_xp_loop (r0 :: rs) { c with xp := c.xp + 300 } false
        = some (C1, true)
      rw [gain_xp_loop_step r0 rs _ false hg0 C1 hl1]
      exact gain_xp_loop_stop rs C1 true hguard1
    · rw [hlev1]
      show c.level + 1 = 2
      rw [h1]
  · intro c v1 v2 v3 v4 v5 v6 r0 r1 x2 y2 rs h1 h2 h3 hy1 hy6
    have hmod : get_modifier c.stats "CON" = some (Int.fdiv (v3 - 10) 2) := by
      rw [h3]
      rfl
    have hg0 : ({ c with xp := c.xp + 3000 } : Character).level < 10 ∧
        XP_TABLE (({ c with xp := c.xp + 3000 } : Character).level + 1)
          ≤ ({ c with xp := c.xp + 3000 } : Character).xp := by
      show c.level < 10 ∧ XP_TABLE (c.level + 1) ≤ c.xp + 3000
      rw [h1, h2]
      norm_num [XP_TABLE]
    obtain ⟨C1, hl1⟩ := level_up_isSome { c with xp := c.xp + 3000 }
      r0.1 r0.2 _ hmod
      (fun hh => absurd hh (by
        show ¬(c.level + 1) % 4 = 0
        rw [h1]
        norm_num))
    obtain ⟨m1, -, hlev1, -, -, -, -, -, hxp1, -, -, -, -, -, -, hstne1, -⟩ :=
      level_up_some_spec _ r0.1 r0.2 C1 hl1
    have hlev1' : C1.level = 2 := by
      rw [hlev1]
      show c.level + 1 = 2
      rw [h1]
    have hxp1' : C1.xp = 3000 := by
      rw [hxp1]
      show c.xp + 3000 = 3000
      rw [h2]
      norm_num
    have hst1 : C1.stats = c.stats := by
      refine hstne1 ?_
      show ¬(c.level + 1) % 4 = 0
      rw [h1]
      norm_num
    have hmod1 : get_modifier C1.stats "CON"
        = some (Int.fdiv (v3 - 10) 2) := by
      rw [hst1]
      exact hmod
    have hg1 : C1.level < 10 ∧ XP_TABLE (C1.level + 1) ≤ C1.xp := by
      rw [hlev1', hxp1']
      norm_num [XP_TABLE]
    obtain ⟨C2, hl2⟩ := level_up_isSome C1 r1.1 r1.2 _ hmod1
      (fun hh => absurd hh (by
        rw [hlev1']
        norm_num))
    obtain ⟨m2, -, hlev2, -, -, -, -, -, hxp2, -, -, -, -, -, -, hstne2, -⟩ :=
      level_up_some_spec C1 r1.1 r1.2 C2 hl2
    have hlev2' : C2.level = 3 := by
      rw [hlev2, hlev1']
    have hxp2' : C2.xp = 3000 := by
      rw [hxp2, hxp1']
    have hst2 : C2.stats = c.stats := by
      rw [hstne2 (by rw [hlev1']; norm_num), hst1]
    have hmod2 : get_modifier C2.stats "CON"
        = some (Int.fdiv (v3 - 10) 2) := by
      rw [hst2]
      exact hmod
    have hg2 : C2.level < 10 ∧ XP_TABLE (C2.level + 1) ≤ C2.xp := by
      rw [hlev2', hxp2']
      norm_num [XP_TABLE]
    have h4t : (C2.level + 1) % 4 = 0 := by
      rw [hlev2']
    have hnth : ∃ p, listNth c.stats (y2 - 1) = some p := by
      rw [h3]
      interval_cases y2 <;> exact ⟨_, rfl⟩
    obtain ⟨p0, hp0⟩ := hnth
    obtain ⟨C3, hl3⟩ := level_up_isSome C2 x2 y2 _ hmod2
      (fun _ => ⟨p0, by rw [hst2]; exact hp0⟩)
    obtain ⟨m3, -, hlev3, -, -, -, -, -, hxp3, -, -, -, -, -, -, -,
        hsteq3⟩ := level_up_some_spec C2 x2 y2 C3 hl3
    obtain ⟨p, hp, hstats3⟩ := hsteq3 h4t
    rw [hst2, h3] at hp
    have hguard3 : ¬(C3.level < 10 ∧ XP_TABLE (C3.level + 1) ≤ C3.xp) := by
      rw [hlev3, hlev2', hxp3, hxp2']
      norm_num [XP_TABLE]
    refine ⟨C3, ?_, ?_, ?_⟩
    · show gain_xp_loop (r0 :: r1 :: (x2, y2) :: rs)
        { c with xp := c.xp + 3000 } false = some (C3, true)
      rw [gain_xp_loop_step r0 _ _ false hg0 C1 hl1,
        gain_xp_loop_step r1 _ _ true hg1 C2 hl2,
        gain_xp_loop_step (x2, y2) _ _ true hg2 C3 hl3]
      exact gain_xp_loop_stop rs C3 true hguard3
    · rw [hlev3, hlev2']
    · rw [hstats3, hst2, h3]
      interval_cases y2 <;>
      · injection hp with hpv
        subst hpv
        simp [statInc, statSum]
        ring

/-- C2 counterexample: `roll_stats` does not clamp hp at 0.  With
`base_hp = 0` and every 3d6 total equal to 3 (a valid outcome, three 1s),
the character's hp right after `roll_stats` is `0 + floor((3-10)/2) = -4`,
which is negative. -/
theorem roll_stats_negative_hp :
    (roll_stats (Character.init "A" "Human" 0) (fun _ => 3)).hp = -4 ∧
    (roll_stats (Character.init "A" "Human" 0) (fun _ => 3)).hp < 0 ∧
    ((3 : Nat) ≤ 3 ∧ (3 : Nat) ≤ 18) := by
  decide

/-- An example level-1 spell from the registry (`SPELLS["Magic Missile"]`). -/
def exSpell1 : Spell :=
  ⟨"Magic Missile", 1, "Evocation", 7⟩

/-- An example rolled level-1 character used to instantiate the theorems. -/
def exChar : Character :=
  { name := "Hero", race := "Human",
    stats := [("STR", 16), ("DEX", 14), ("CON", 12),
              ("INT", 10), ("WIS", 13), ("CHA", 11)],
    base_hp := 10, hp := 11, max_hp := 11, armor_class := 10,
    weapon := WEAPONS.lookup "Club",
    level := 1, xp := 0,
    known_spells := [exSpell1, ⟨"Fire Bolt", 0, "Evocation", 5⟩],
    spell_slots := [(1, 2), (2, 0), (3, 0)],
    max_spell_slots := [(1, 2), (2, 0), (3, 0)] }

/-- The result of `level_up exChar 7 1` (d10 roll 7, CON modifier +1). -/
def exCharL2 : Character :=
  { exChar with
    level := 2, max_hp := 19, hp := 19,
    max_spell_slots := [(1, 3), (2, 0), (3, 0)],
    spell_slots := [(1, 3), (2, 0), (3, 0)] }

/-- Witness for the C7 theorem at a concrete stat block. -/
theorem get_modifier_witness :
    ([("STR", (8 : Int))].lookup "STR" = some 8) ∧
    get_modifier [("STR", 8)] "STR" = some (Int.fdiv (8 - 10) 2) :=
  ⟨rfl, (get_modifier_spec [("STR", 8)] "STR").1 8 rfl⟩

/-- Witness for the C3 theorem: Cure Wounds (power -5) cast with INT
modifier 0 deals exactly 0 and leaves the target untouched. -/
theorem spell_cast_witness :
    (get_modifier [("INT", (10 : Int))] "INT" = some 0 ∧
      (0 : Int) ≤ defenderEx.hp) ∧
    (∃ t' dmg,
      Spell.cast ⟨"Cure Wounds", 1, "Evocation", -5⟩ [("INT", 10)] defenderEx
        = some (t', dmg) ∧
      dmg = max 0 (-5 + 0) ∧
      t'.hp = max 0 (defenderEx.hp - dmg) ∧
      t'.hp ≤ defenderEx.hp ∧
      ((-5 : Int) + 0 < 0 → dmg = 0 ∧ t'.hp = defenderEx.hp)) :=
  ⟨⟨rfl, by decide⟩,
    spell_cast_spec ⟨"Cure Wounds", 1, "Evocation", -5⟩ [("INT", 10)]
      defenderEx 0 rfl (by decide)⟩

/-- Witness for the C6 theorem at attack roll 15 (+5 STR) and damage roll
4 against armor class 10. -/
theorem attack_witness :
    (get_modifier attackerDagger.stats "STR" = some 5) ∧
    ((defenderEx.armor_class ≤ ((15 : Nat) : Int) + 5 →
      attack attackerDagger defenderEx 15 4
        = some ({ defenderEx with
                  hp := max 0 (defenderEx.hp - ((4 : Nat) : Int)) },
                ((4 : Nat) : Int))) ∧
    (((15 : Nat) : Int) + 5 < defenderEx.armor_class →
      attack attackerDagger defenderEx 15 4 = some (defenderEx, 0))) :=
  ⟨rfl, attack_spec attackerDagger defenderEx 15 4 5 rfl⟩

/-- Witness for the amended C2 theorem: a concrete hit leaves the defender
at nonnegative hp. -/
theorem hp_floor_witness :
    (0 : Int) ≤ defenderEx.hp ∧
    (0 : Int) ≤ ({ defenderEx with hp := 16 } : Entity).hp :=
  ⟨by decide,
    hp_mutation_floors.1 attackerDagger defenderEx 15 4
      { defenderEx with hp := 16 } 4 (by decide) (by decide)⟩

/-- Witness for the C4 theorem: casting the known level-1 spell decrements
exactly the level-1 slot. -/
theorem cast_spell_witness :
    (can_cast_spell exChar exSpell1 = true ∧ 0 < exSpell1.level) ∧
    (slotsGet (cast_spell exChar exSpell1 defenderEx).1.spell_slots
        exSpell1.level + 1
      = slotsGet exChar.spell_slots exSpell1.level ∧
    ∀ l, l ≠ exSpell1.level →
      slotsGet (cast_spell exChar exSpell1 defenderEx).1.spell_slots l
        = slotsGet exChar.spell_slots l) :=
  ⟨⟨by decide, by decide⟩,
    (cast_spell_spec exChar exSpell1 defenderEx).2.2.2.2 (by decide)
      (by decide)⟩

/-- Witness for the C8 theorem: `level_up exChar 7 1` computes to
`exCharL2`. -/
theorem level_up_witness :
    (exChar.level < 10 ∧ level_up exChar 7 1 = some exCharL2) ∧
    (exCharL2.level = exChar.level + 1 ∧
    (∃ conMod, get_modifier exChar.stats "CON" = some conMod ∧
      exCharL2.max_hp = exChar.max_hp + max 1 (((7 : Nat) : Int) + conMod)) ∧
    exChar.max_hp + 1 ≤ exCharL2.max_hp ∧
    exCharL2.hp = exCharL2.max_hp ∧
    exCharL2.max_spell_slots = SPELL_SLOTS_BY_LEVEL (exChar.level + 1) ∧
    exCharL2.spell_slots = SPELL_SLOTS_BY_LEVEL (exChar.level + 1)) :=
  ⟨⟨by decide, by decide⟩,
    level_up_spec exChar 7 1 exCharL2 (by decide) (by decide)⟩

/-- Witness for the C10 theorem: after the level-up, one cast later the
slot capacities still read from the table entry for level 2. -/
theorem slot_frame_witness :
    (level_up exChar 7 1 = some exCharL2) ∧
    (applyCasts exCharL2 [(exSpell1, defenderEx)]).max_spell_slots
      = SPELL_SLOTS_BY_LEVEL (exChar.level + 1) :=
  ⟨by decide,
    slot_copy_frame.2 exChar 7 1 exCharL2 [(exSpell1, defenderEx)]
      (by decide)⟩

/-- Witness for the C5 theorem: 300 XP takes the fresh level-1 `exChar` to
exactly level 2. -/
theorem gain_xp_witness :
    (exChar.level = 1 ∧ exChar.xp = 0) ∧
    (∃ c', gain_xp exChar 300 [(7, 1)] = some (c', true) ∧ c'.level = 2) :=
  ⟨⟨rfl, rfl⟩,
    gain_xp_spec.2.1 exChar 16 14 12 10 13 11 (7, 1) [] rfl rfl rfl⟩
